import Mathlib

/-!
Verification development for the hand-gesture-recognition pipeline
(Python tutorial: background subtraction, segmentation, wave detection,
finger counting, modal smoothing, gesture classification).

The Python source is shallowly embedded below.  Machine images are modelled
as nested lists: a grayscale uint8 region is a `List (List Nat)` (row-major,
entries 0..255), the floating-point background buffer is a `List (List Rat)`.
External OpenCV/NumPy primitives that are pure library calls
(`cv2.findContours`, `cv2.convexHull`) are modelled as inputs supplied with
each frame; arithmetic primitives (`cv2.accumulateWeighted`, `cv2.absdiff`,
`cv2.threshold`, `cv2.contourArea`) are translated to elementwise rational /
integer arithmetic.  Python `int()` truncation toward zero is `pyInt`.
-/

namespace HGR

/-- A 2D integer point, as the Python code's coordinate tuples `(x, y)`. -/
structure Pt where
  x : Int
  y : Int
deriving DecidableEq, Repr

/-- Python truncation toward zero, the semantics of `int(...)` applied to a
float (here an exact rational): floor for nonnegative values, ceiling for
negative ones. -/
def pyInt (q : Rat) : Int :=
  if 0 ≤ q then ⌊q⌋ else ⌈q⌉

/-- Global constant `CALIBRATION_TIME = 30` from the source. -/
def CALIBRATION_TIME : Nat := 30

/-- Global constant `BG_WEIGHT = 0.5` from the source (exact as a rational). -/
def BG_WEIGHT : Rat := 1 / 2

/-- Global constant `OBJ_THRESHOLD = 18` from the source. -/
def OBJ_THRESHOLD : Int := 18

/-- The `HandData` class of the source: extremities, current and previous
horizontal center, presence and wave flags, smoothed finger count, and the
rolling list of per-frame finger observations (the class attribute
`gesture_list`, used by `get_hand_data` through the attribute name
`gestureList`). -/
structure HandData where
  top : Pt
  bottom : Pt
  left : Pt
  right : Pt
  centerX : Int
  prevCenterX : Int
  isInFrame : Bool
  isWaving : Bool
  fingers : Nat
  gestureList : List Nat
deriving DecidableEq, Repr

/-- The `HandData.__init__` constructor.  In the source the two lines
`isInFrame = False` and `isWaving = False` lack `self.`, so they bind locals
and have no effect; the instance nevertheless starts with the class-attribute
defaults `isInFrame = False`, `isWaving = False`, `fingers = 0`,
`prevCenterX = 0` and an empty gesture list, which is what this embedding
records. -/
def HandData.init (top bottom left right : Pt) (centerX : Int) : HandData :=
  { top := top, bottom := bottom, left := left, right := right
    centerX := centerX, prevCenterX := 0
    isInFrame := false, isWaving := false
    fingers := 0, gestureList := [] }

/-- The `HandData.update` method: overwrite only the four extremities. -/
def HandData.update (h : HandData) (top bottom left right : Pt) : HandData :=
  { h with top := top, bottom := bottom, left := left, right := right }

/-- The `HandData.check_for_waving` method, with the source's global name
`handData` read as the one live hand object (see the name-resolution
development further below for the literal name defect).  The body first
shifts `centerX` into `prevCenterX` and stores the new center; its test is
`abs(handData.centerX - handData.prevCenterX > 3)`: Python parses the
subtraction first, so `abs` is applied to the boolean comparison
`(centerX - prevCenterX) > 3`, and `abs(True) = 1` is truthy while
`abs(False) = 0` is falsy.  The executed condition is therefore the signed
comparison `centerX - prevCenterX > 3`, with no absolute value. -/
def check_for_waving (h : HandData) (centerX : Int) : HandData :=
  let h1 := { h with prevCenterX := h.centerX, centerX := centerX }
  if h1.centerX - h1.prevCenterX > 3 then
    { h1 with isWaving := true }
  else
    { h1 with isWaving := false }

/-- Promotion of a uint8 region to the floating-point background buffer,
the source's `region.copy().astype("float")`. -/
def toFloatImg (region : List (List Nat)) : List (List Rat) :=
  region.map (fun row => row.map (fun v => (v : Rat)))

/-- Elementwise `cv2.accumulateWeighted(region, background, BG_WEIGHT)`:
background ← (1 − alpha)·background + alpha·region. -/
def accumulateWeighted (bg : List (List Rat)) (region : List (List Nat)) :
    List (List Rat) :=
  List.zipWith
    (fun brow rrow =>
      List.zipWith (fun (b : Rat) (r : Nat) => (1 - BG_WEIGHT) * b + BG_WEIGHT * (r : Rat))
        brow rrow)
    bg region

/-- The `get_average` function: seed the background with the first observed
region (promoted to float), otherwise fold the region into the running
average with weight `BG_WEIGHT`. -/
def get_average (background : Option (List (List Rat))) (region : List (List Nat)) :
    Option (List (List Rat)) :=
  match background with
  | none => some (toFloatImg region)
  | some bg => some (accumulateWeighted bg region)

/-- The thresholded absolute difference computed inside `segment`:
`cv2.absdiff(background.astype(np.uint8), region)` followed by
`cv2.threshold(diff, OBJ_THRESHOLD, 255, cv2.THRESH_BINARY)`.  The uint8
cast truncates each (in-range, nonnegative) background value toward zero;
a pixel is foreground exactly when the absolute difference strictly exceeds
`OBJ_THRESHOLD`. -/
def toMask (bg : List (List Rat)) (region : List (List Nat)) : List (List Bool) :=
  List.zipWith
    (fun brow rrow =>
      List.zipWith (fun (b : Rat) (r : Nat) =>
        decide (((pyInt b - (r : Int)).natAbs : Int) > OBJ_THRESHOLD)) brow rrow)
    bg region

/-- A contour as returned by `cv2.findContours`: a list of boundary points. -/
abbrev Contour := List Pt

/-- The cyclic cross-product sum of the shoelace formula, over a contour
listed as first point, remaining points, and (threaded) the first point
again to close the polygon. -/
def shoelaceAux (p : Pt) (rest : List Pt) (first : Pt) : Int :=
  match rest with
  | [] => p.x * first.y - first.x * p.y
  | q :: qs => (p.x * q.y - q.x * p.y) + shoelaceAux q qs first

/-- `cv2.contourArea`: half the absolute value of the shoelace sum. -/
def contourArea (c : Contour) : Rat :=
  match c with
  | [] => 0
  | p :: rest => ((shoelaceAux p rest p).natAbs : Rat) / 2

/-- Python's `max(c :: rest, key = f)`: fold keeping the current best unless
a strictly larger key appears, so the first maximal element wins ties. -/
def pymaxBy (f : Contour → Rat) (c : Contour) (rest : List Contour) : Contour :=
  rest.foldl (fun best d => if f d > f best then d else best) c

/-- The `segment` function.  It computes the thresholded difference mask,
then inspects the external contours of that mask (the `cv2.findContours`
call is an external library primitive, so its output `contours` is an input
here).  With no contours it clears the hand's in-frame flag (when a hand
object exists) and returns no pair (Python's bare `return`, i.e. `None`);
otherwise it sets the flag and returns the mask together with
`max(contours, key = cv2.contourArea)`. -/
def segment (hand : Option HandData) (background : List (List Rat))
    (region : List (List Nat)) (contours : List Contour) :
    Option HandData × Option (List (List Bool) × Contour) :=
  let thresholded_region := toMask background region
  match contours with
  | [] => (hand.map (fun h => { h with isInFrame := false }), none)
  | c :: rest =>
      (hand.map (fun h => { h with isInFrame := true }),
       some (thresholded_region, pymaxBy contourArea c rest))

/-- NumPy `argmin` over a point list with an integer key: the first point
attaining the minimal key (junk point for the empty list, which the running
program never produces). -/
def argminBy (f : Pt → Int) : List Pt → Pt
  | [] => { x := 0, y := 0 }
  | p :: rest => rest.foldl (fun best q => if f q < f best then q else best) p

/-- NumPy `argmax` over a point list with an integer key: the first point
attaining the maximal key. -/
def argmaxBy (f : Pt → Int) : List Pt → Pt
  | [] => { x := 0, y := 0 }
  | p :: rest => rest.foldl (fun best q => if f q > f best then q else best) p

/-- The `most_frequent` scan loop: Python iterates over
`reversed(input_list)` keeping a dictionary of running counts (here a
function, with `dict.get(item, 0)` as the total so far), the best count seen
and the current leader, replacing the leader whenever an item's new count
reaches at least the best count. -/
def mfLoop : List Nat → (Nat → Nat) → Nat → Nat → Nat
  | [], _, _, most_freq => most_freq
  | item :: rest, d, count, most_freq =>
      let c := d item + 1
      let d2 := fun v => if v = item then c else d v
      if c ≥ count then mfLoop rest d2 c item
      else mfLoop rest d2 count most_freq

/-- The `most_frequent` function of the source: scan the list newest-first
(`reversed(input_list)`) with `mfLoop`, starting from an empty dictionary,
count 0 and leader 0. -/
def most_frequent (input_list : List Nat) : Nat :=
  mfLoop input_list.reverse (fun _ => 0) 0 0

/-- The scan height of `count_fingers`:
`int(hand.top[1] + (0.2 * (hand.bottom[1] - hand.top[1])))`. -/
def line_height (h : HandData) : Int :=
  pyInt ((h.top.y : Rat) + (1 / 5) * ((h.bottom.y : Rat) - (h.top.y : Rat)))

/-- The row of the mask selected by `cv2.line` at height `lh` followed by
`cv2.bitwise_and`: the mask's row `lh` when `0 ≤ lh` and the row exists,
otherwise an all-background line (the drawn line misses the image). -/
def scanRow (mask : List (List Bool)) (lh : Int) : List Bool :=
  if 0 ≤ lh then mask.getD lh.toNat [] else []

/-- Maximal-run accumulator over a scan row: `acc` is the length of the
foreground run currently open. -/
def runsGo : List Bool → Nat → List Nat
  | [], 0 => []
  | [], n + 1 => [n + 1]
  | true :: rest, n => runsGo rest (n + 1)
  | false :: rest, 0 => runsGo rest 0
  | false :: rest, n + 1 => (n + 1) :: runsGo rest 0

/-- Lengths of the maximal foreground runs of a scan row.  This models the
external `cv2.findContours` call on the one-pixel-tall intersection line:
one contour per maximal foreground run, of length the run's pixel count
(the tutorial's reading of `len(curr)` as the crossing's width). -/
def scanRuns (row : List Bool) : List Nat :=
  runsGo row 0

/-- A mask that is entirely background: every pixel of every row is
`false`. -/
def allBackground (mask : List (List Bool)) : Prop :=
  ∀ row ∈ mask, ∀ b ∈ row, b = false

/-- The `count_fingers` function: take the mask's scan row at `line_height`,
extract its crossings, and count those whose width `w` satisfies
`w < 3 * abs(hand.right[0] - hand.left[0]) / 4 and w > 5` (rational
division, as Python's `/`). -/
def count_fingers (thresholded_image : List (List Bool)) (h : HandData) : Nat :=
  (scanRuns (scanRow thresholded_image (line_height h))).foldl
    (fun (fingers : Nat) (width : Nat) =>
      if (width : Rat) < 3 * |((h.right.x : Rat) - (h.left.x : Rat))| / 4 ∧ 5 < width then
        fingers + 1
      else fingers)
    0

/-- The hand center computed in `get_hand_data`:
`int((left[0] + right[0]) / 2)` for the hull's horizontal extremities. -/
def hullCenterX (hull : List Pt) : Int :=
  pyInt ((((argminBy (fun p => p.x) hull).x : Rat) +
          ((argmaxBy (fun p => p.x) hull).x : Rat)) / 2)

/-- The first half of the `get_hand_data` body: extremities as NumPy
argmin/argmax over the external `cv2.convexHull` result, then either the
`HandData(...)` constructor (no hand yet) or `hand.update(...)`. -/
def handUpsert (hand : Option HandData) (hull : List Pt) : HandData :=
  let top := argminBy (fun p => p.y) hull
  let bottom := argmaxBy (fun p => p.y) hull
  let left := argminBy (fun p => p.x) hull
  let right := argmaxBy (fun p => p.x) hull
  match hand with
  | none => HandData.init top bottom left right (hullCenterX hull)
  | some h => h.update top bottom left right

/-- The hand object after `get_hand_data`'s wave-sampling statement: on
every eighth frame the wave check runs on the newly computed center,
otherwise the object passes through unchanged. -/
def handAfterWave (hand : Option HandData) (frames_elapsed : Nat) (hull : List Pt) :
    HandData :=
  if frames_elapsed % 8 = 0 then check_for_waving (handUpsert hand hull) (hullCenterX hull)
  else handUpsert hand hull

/-- The `get_hand_data` function (with the wave-check call site's intended
binding `handData ↦ hand`, `checkForWaving ↦ check_for_waving`; the literal
written names are treated separately in `get_hand_data_written`).  After the
upsert and the every-eighth-frame wave check, a finger observation is
appended to the gesture history on every call, and every twelfth frame the
modal vote is taken and the history cleared. -/
def get_hand_data (hand : Option HandData) (frames_elapsed : Nat)
    (thresholded_image : List (List Bool)) (hull : List Pt) : Option HandData :=
  let h1 := handAfterWave hand frames_elapsed hull
  let h2 := { h1 with gestureList := h1.gestureList ++ [count_fingers thresholded_image h1] }
  let h3 := if frames_elapsed % 12 = 0 then
      { h2 with fingers := most_frequent h2.gestureList, gestureList := [] }
    else h2
  some h3

/-- The `write_on_image` text: the displayed gesture label as a pure
function of the frame counter and the optional hand object, exactly the
source's if/elif chain (initial value "Searching...", overwritten by the
matching branch). -/
def write_on_image_text (frames_elapsed : Nat) (hand : Option HandData) : String :=
  if frames_elapsed < CALIBRATION_TIME then "Calibrating..."
  else
    match hand with
    | none => "No hand detected"
    | some h =>
        if h.isInFrame = false then "No hand detected"
        else if h.isWaving then "Waving"
        else if h.fingers = 0 then "Rock"
        else if h.fingers = 1 then "Pointing"
        else if h.fingers = 2 then "Scissors"
        else "Searching..."

/-- The pipeline's mutable state: the background buffer (absent until
seeded), the optional hand object, and the frame counter. -/
structure PipelineState where
  background : Option (List (List Rat))
  hand : Option HandData
  frames_elapsed : Nat

/-- The per-frame external data: the preprocessed grayscale region (the
`get_region` crop/grayscale/blur is an out-of-scope preprocessing step, so
its output is the input here), together with the outputs of the external
`cv2.findContours` and `cv2.convexHull` calls for this frame. -/
structure FrameInput where
  region : List (List Nat)
  contours : List Contour
  hull : List Pt

/-- One iteration of the main loop's in-scope pipeline:
if `frames_elapsed < CALIBRATION_TIME` then `get_average(region)`, else
`segment(region)` followed (when a pair is returned) by
`get_hand_data`; finally `frames_elapsed += 1`.  `write_on_image` is
read-only and modelled separately as `write_on_image_text`. -/
def mainStep (s : PipelineState) (inp : FrameInput) : PipelineState :=
  if s.frames_elapsed < CALIBRATION_TIME then
    { s with background := get_average s.background inp.region
             frames_elapsed := s.frames_elapsed + 1 }
  else
    let res := segment s.hand (s.background.getD []) inp.region inp.contours
    let hand2 := match res.2 with
      | none => res.1
      | some (thr, _seg) => get_hand_data res.1 s.frames_elapsed thr inp.hull
    { s with hand := hand2, frames_elapsed := s.frames_elapsed + 1 }

/-- Every name the tutorial's Python code binds at module scope or uses as a
binding occurrence anywhere (globals, function and class names, function
locals and parameters).  Collected from the source; note that `handData`
appears nowhere among them — its only occurrences are the two reads in
`get_hand_data` and `check_for_waving`. -/
def boundPythonNames : List String :=
  ["np", "cv2", "background", "hand", "frames_elapsed", "FRAME_HEIGHT",
   "FRAME_WIDTH", "CALIBRATION_TIME", "BG_WEIGHT", "OBJ_THRESHOLD",
   "capture", "ret", "frame", "region_top", "region_bottom", "region_left",
   "region_right", "region", "region_pair", "thresholded_region",
   "segmented_region", "HandData", "get_region", "get_average", "segment",
   "get_hand_data", "write_on_image", "count_fingers", "most_frequent",
   "self", "top", "bottom", "left", "right", "centerX", "diff", "contours",
   "convexHull", "text", "display_frame", "thresholded_image",
   "segmented_image", "line_height", "line", "fingers", "curr", "width",
   "input_list", "dict", "count", "most_freq", "item", "gesture_list"]

/-- The attribute and method names the `HandData` class defines (class
attributes, the constructor-set instance attributes and the three methods).
`checkForWaving` is not among them: the class's wave method is named
`check_for_waving`. -/
def handDataAttributeNames : List String :=
  ["top", "bottom", "left", "right", "centerX", "prevCenterX", "isInFrame",
   "isWaving", "fingers", "gesture_list", "__init__", "update",
   "check_for_waving"]

/-- The receiver name the wave-check call site
`handData.checkForWaving(centerX)` reads. -/
def waveCallReceiver : String := "handData"

/-- The method name the wave-check call site looks up on the receiver. -/
def waveCallMethod : String := "checkForWaving"

/-- The `get_hand_data` body exactly as written: on a frame with
`frames_elapsed % 8 == 0` it executes `handData.checkForWaving(centerX)`,
which first resolves the name `handData` and then the attribute
`checkForWaving`; if either lookup fails the statement raises and nothing
after it in the body runs.  The lookups are taken against the program's
actual name tables `boundPythonNames` and `handDataAttributeNames`. -/
def get_hand_data_written (hand : Option HandData) (frames_elapsed : Nat)
    (thresholded_image : List (List Bool)) (hull : List Pt) :
    Except String (Option HandData) :=
  let h0 := handUpsert hand hull
  let rest := fun (h1 : HandData) =>
    let h2 := { h1 with gestureList := h1.gestureList ++ [count_fingers thresholded_image h1] }
    let h3 := if frames_elapsed % 12 = 0 then
        { h2 with fingers := most_frequent h2.gestureList, gestureList := [] }
      else h2
    Except.ok (some h3)
  if frames_elapsed % 8 = 0 then
    if waveCallReceiver ∈ boundPythonNames then
      if waveCallMethod ∈ handDataAttributeNames then
        rest (check_for_waving h0 (hullCenterX hull))
      else Except.error "AttributeError: HandData object has no attribute checkForWaving"
    else Except.error "NameError: name handData is not defined"
  else rest h0

/-- The gesture label enumeration of the specification. -/
inductive GestureLabel where
  | Calibrating
  | NoHand
  | Waving
  | Rock
  | Pointing
  | Scissors
  | Unknown
deriving DecidableEq, Repr

/-- Modelled from the spec: the Gesture Classifier of section 4.8, a pure
function of the frame counter and the optional HandState, written to the
spec's words to be compared with the source's `write_on_image_text`. -/
def classifySpec (frameCounter : Nat) (hand : Option HandData) : GestureLabel :=
  if frameCounter < CALIBRATION_TIME then GestureLabel.Calibrating
  else
    match hand with
    | none => GestureLabel.NoHand
    | some h =>
        if h.isInFrame = false then GestureLabel.NoHand
        else if h.isWaving then GestureLabel.Waving
        else if h.fingers = 0 then GestureLabel.Rock
        else if h.fingers = 1 then GestureLabel.Pointing
        else if h.fingers = 2 then GestureLabel.Scissors
        else GestureLabel.Unknown

/-- The rendering of each abstract label as the text the code writes;
`Unknown` is rendered by the code's untouched initial text
"Searching...". -/
def labelText : GestureLabel → String
  | GestureLabel.Calibrating => "Calibrating..."
  | GestureLabel.NoHand => "No hand detected"
  | GestureLabel.Waving => "Waving"
  | GestureLabel.Rock => "Rock"
  | GestureLabel.Pointing => "Pointing"
  | GestureLabel.Scissors => "Scissors"
  | GestureLabel.Unknown => "Searching..."

/-- The value a window vote actually selects from a history list `l`
(oldest entry first): a value of `l` occurring at least as often as every
other value, and, among the values tied at that maximal count, the one
whose first occurrence in `l` is earliest (i.e. the oldest tied value, not
the most recent one). -/
def isLeadingVote (l : List Nat) (m : Nat) : Prop :=
  m ∈ l ∧ (∀ w ∈ l, l.count w ≤ l.count m) ∧
    ∀ w ∈ l, l.count w = l.count m → l.indexOf m ≤ l.indexOf w

lemma mfLoop_leader (s : List Nat) :
    ∀ (p : List Nat) (d : Nat → Nat) (count most_freq : Nat),
      (∀ v, d v = p.count v) →
      ((p = [] ∧ count = 0) ∨
        (most_freq ∈ p ∧ count = p.count most_freq ∧
          (∀ w ∈ p, p.count w ≤ count) ∧
          (∀ w ∈ p, p.count w = count →
            p.reverse.indexOf most_freq ≤ p.reverse.indexOf w))) →
      p ++ s ≠ [] →
      (mfLoop s d count most_freq ∈ p ++ s ∧
        (∀ w ∈ p ++ s, (p ++ s).count w ≤ (p ++ s).count (mfLoop s d count most_freq)) ∧
        (∀ w ∈ p ++ s, (p ++ s).count w = (p ++ s).count (mfLoop s d count most_freq) →
          (p ++ s).reverse.indexOf (mfLoop s d count most_freq) ≤
            (p ++ s).reverse.indexOf w)) := by
  induction s with
  | nil =>
      intro p d count most_freq _hd hinv hne
      simp only [List.append_nil, mfLoop] at hne ⊢
      rcases hinv with ⟨hp, _⟩ | ⟨hm, hc, hmax, htie⟩
      · exact absurd hp hne
      · refine ⟨hm, ?_, ?_⟩
        · intro w hw
          have := hmax w hw
          omega
        · intro w hw hcw
          exact htie w hw (by omega)
  | cons x rest ih =>
      intro p d count most_freq hd hinv hne
      simp only [mfLoop]
      have hpx : ∀ v, (fun v => if v = x then d x + 1 else d v) v = (p ++ [x]).count v := by
        intro v
        by_cases hv : v = x
        · subst hv
          simp [List.count_append, hd v]
        · simp [List.count_append, hd v, List.count_singleton', hv, Ne.symm hv]
      have happ : p ++ [x] ++ rest = p ++ x :: rest := by
        simp
      by_cases hcc : d x + 1 ≥ count
      · rw [if_pos hcc]
        have hinv2 : (p ++ [x] = [] ∧ d x + 1 = 0) ∨
            (x ∈ p ++ [x] ∧ d x + 1 = (p ++ [x]).count x ∧
              (∀ w ∈ p ++ [x], (p ++ [x]).count w ≤ d x + 1) ∧
              (∀ w ∈ p ++ [x], (p ++ [x]).count w = d x + 1 →
                (p ++ [x]).reverse.indexOf x ≤ (p ++ [x]).reverse.indexOf w)) := by
          right
          refine ⟨by simp, ?_, ?_, ?_⟩
          · rw [List.count_append, hd x]; simp
          · intro w hw
            by_cases hvx : w = x
            · subst hvx
              rw [List.count_append, hd w]; simp
            · rw [List.count_append]
              have hwp : w ∈ p := by
                rcases List.mem_append.mp hw with h | h
                · exact h
                · simp at h; exact absurd h hvx
              have h1 : p.count w ≤ count := by
                rcases hinv with ⟨hp, _⟩ | ⟨_, _, hmax, _⟩
                · subst hp; exact absurd hwp (by simp)
                · exact hmax w hwp
              have h2 : List.count w [x] = 0 := by
                simp [List.count_singleton', hvx, Ne.symm hvx]
              omega
          · intro w hw _
            have : (p ++ [x]).reverse = x :: p.reverse := by simp
            rw [this, List.indexOf_cons_self]
            exact Nat.zero_le _
        have := ih (p ++ [x]) _ (d x + 1) x hpx hinv2 (by simp)
        rw [happ] at this
        exact this
      · rw [if_neg hcc]
        rcases hinv with ⟨hp, hc0⟩ | ⟨hm, hc, hmax, htie⟩
        · exfalso; omega
        · have hmx : most_freq ≠ x := by
            intro heq
            apply hcc
            rw [hd x, ← heq, ← hc]
            omega
          have hinv2 : (p ++ [x] = [] ∧ count = 0) ∨
              (most_freq ∈ p ++ [x] ∧ count = (p ++ [x]).count most_freq ∧
                (∀ w ∈ p ++ [x], (p ++ [x]).count w ≤ count) ∧
                (∀ w ∈ p ++ [x], (p ++ [x]).count w = count →
                  (p ++ [x]).reverse.indexOf most_freq ≤ (p ++ [x]).reverse.indexOf w)) := by
            right
            refine ⟨List.mem_append_left _ hm, ?_, ?_, ?_⟩
            · rw [List.count_append, List.count_singleton', if_neg (Ne.symm hmx)]
              omega
            · intro w hw
              by_cases hvx : w = x
              · subst hvx
                rw [List.count_append, List.count_singleton', if_pos rfl, ← hd w]
                omega
              · have hwp : w ∈ p := by
                  rcases List.mem_append.mp hw with h | h
                  · exact h
                  · simp at h; exact absurd h hvx
                rw [List.count_append, List.count_singleton', if_neg (Ne.symm hvx)]
                have := hmax w hwp
                omega
            · intro w hw hcw
              have hrev : (p ++ [x]).reverse = x :: p.reverse := by simp
              by_cases hvx : w = x
              · exfalso
                subst hvx
                rw [List.count_append, List.count_singleton', if_pos rfl, ← hd w] at hcw
                omega
              · have hwp : w ∈ p := by
                  rcases List.mem_append.mp hw with h | h
                  · exact h
                  · simp at h; exact absurd h hvx
                rw [List.count_append, List.count_singleton', if_neg (Ne.symm hvx),
                  Nat.add_zero] at hcw
                rw [hrev, List.indexOf_cons_ne _ (Ne.symm hmx),
                  List.indexOf_cons_ne _ (Ne.symm hvx)]
                exact Nat.succ_le_succ (htie w hwp hcw)
          have := ih (p ++ [x]) _ count most_freq hpx hinv2 (by simp)
          rw [happ] at this
          exact this

lemma check_for_waving_gestureList (h : HandData) (cx : Int) :
    (check_for_waving h cx).gestureList = h.gestureList := by
  by_cases hc : cx - h.centerX > 3 <;> simp [check_for_waving, hc]

lemma check_for_waving_fingers (h : HandData) (cx : Int) :
    (check_for_waving h cx).fingers = h.fingers := by
  by_cases hc : cx - h.centerX > 3 <;> simp [check_for_waving, hc]

lemma handAfterWave_some_gestureList (h : HandData) (f : Nat) (hull : List Pt) :
    (handAfterWave (some h) f hull).gestureList = h.gestureList := by
  unfold handAfterWave
  split_ifs <;> simp [check_for_waving_gestureList, handUpsert, HandData.update]

lemma handAfterWave_some_fingers (h : HandData) (f : Nat) (hull : List Pt) :
    (handAfterWave (some h) f hull).fingers = h.fingers := by
  unfold handAfterWave
  split_ifs <;> simp [check_for_waving_fingers, handUpsert, HandData.update]

lemma pymaxBy_mem (f : Contour → Rat) (c : Contour) (rest : List Contour) :
    pymaxBy f c rest ∈ c :: rest := by
  induction rest generalizing c with
  | nil => simp [pymaxBy]
  | cons e rest ih =>
      have hstep : pymaxBy f c (e :: rest) = pymaxBy f (if f e > f c then e else c) rest := rfl
      rw [hstep]
      by_cases hfe : f e > f c
      · rw [if_pos hfe]
        rcases List.mem_cons.mp (ih e) with h | h
        · rw [h]; simp
        · simp [h]
      · rw [if_neg hfe]
        rcases List.mem_cons.mp (ih c) with h | h
        · rw [h]; simp
        · simp [h]

lemma pymaxBy_le (f : Contour → Rat) (c : Contour) (rest : List Contour) :
    ∀ d ∈ c :: rest, f d ≤ f (pymaxBy f c rest) := by
  induction rest generalizing c with
  | nil =>
      intro d hd
      simp only [List.mem_singleton] at hd
      subst hd
      simp [pymaxBy]
  | cons e rest ih =>
      intro d hd
      have hstep : pymaxBy f c (e :: rest) = pymaxBy f (if f e > f c then e else c) rest := rfl
      rw [hstep]
      have hbase : f c ≤ f (pymaxBy f (if f e > f c then e else c) rest) := by
        by_cases hfe : f e > f c
        · rw [if_pos hfe]
          exact le_trans (le_of_lt hfe) (ih e e (List.mem_cons_self e rest))
        · rw [if_neg hfe]
          exact ih c c (List.mem_cons_self c rest)
      have hbase2 : f e ≤ f (pymaxBy f (if f e > f c then e else c) rest) := by
        by_cases hfe : f e > f c
        · rw [if_pos hfe]
          exact ih e e (List.mem_cons_self e rest)
        · rw [if_neg hfe]
          exact le_trans (le_of_not_lt hfe) (ih c c (List.mem_cons_self c rest))
      have htail : ∀ x ∈ rest, f x ≤ f (pymaxBy f (if f e > f c then e else c) rest) := by
        intro x hx
        by_cases hfe : f e > f c
        · rw [if_pos hfe]
          exact ih e x (List.mem_cons.mpr (Or.inr hx))
        · rw [if_neg hfe]
          exact ih c x (List.mem_cons.mpr (Or.inr hx))
      rcases List.mem_cons.mp hd with h | h
      · rw [h]; exact hbase
      · rcases List.mem_cons.mp h with h2 | h2
        · rw [h2]; exact hbase2
        · exact htail d h2

lemma runsGo_all_false (row : List Bool) (hrow : ∀ b ∈ row, b = false) :
    runsGo row 0 = [] := by
  induction row with
  | nil => rfl
  | cons b rest ih =>
      have hb : b = false := hrow b (List.mem_cons_self b rest)
      subst hb
      simp only [runsGo]
      exact ih (fun b hb => hrow b (List.mem_cons.mpr (Or.inr hb)))

lemma scanRow_all_false (mask : List (List Bool)) (lh : Int)
    (hm : allBackground mask) : ∀ b ∈ scanRow mask lh, b = false := by
  intro b hb
  unfold scanRow at hb
  split_ifs at hb with h0
  · rw [List.getD_eq_getElem?_getD] at hb
    rcases hget : mask[lh.toNat]? with _ | row
    · rw [hget] at hb
      simp at hb
    · rw [hget] at hb
      simp only [Option.getD_some] at hb
      exact hm row (List.getElem?_mem hget) b hb
  · simp at hb

lemma foldl_if_count (p : Nat → Prop) [DecidablePred p] (l : List Nat) :
    ∀ n : Nat, l.foldl (fun acc w => if p w then acc + 1 else acc) n =
      n + (l.filter (fun w => decide (p w))).length := by
  induction l with
  | nil => intro n; simp
  | cons w rest ih =>
      intro n
      simp only [List.foldl_cons, List.filter_cons]
      by_cases hw : p w
      · rw [if_pos hw, ih]
        simp [hw]
        omega
      · rw [if_neg hw, ih]
        simp [hw]

lemma finger_cond_iff (h : HandData) (hspan : h.left.x ≤ h.right.x) (w : Nat) :
    ((w : Rat) < 3 * |((h.right.x : Rat) - (h.left.x : Rat))| / 4 ∧ 5 < w) ↔
      (5 < w ∧ 4 * (w : Int) < 3 * (h.right.x - h.left.x)) := by
  have hsq : ((h.left.x : Rat)) ≤ ((h.right.x : Rat)) := by exact_mod_cast hspan
  rw [abs_of_nonneg (by linarith), lt_div_iff₀ (by norm_num : (0 : Rat) < 4)]
  constructor
  · rintro ⟨h1, h2⟩
    refine ⟨h2, ?_⟩
    have hcast : ((4 * (w : Int) : Int) : Rat) < ((3 * (h.right.x - h.left.x) : Int) : Rat) := by
      push_cast
      linarith
    exact_mod_cast hcast
  · rintro ⟨h2, h1⟩
    refine ⟨?_, h2⟩
    have hcast : ((4 * (w : Int) : Int) : Rat) < ((3 * (h.right.x - h.left.x) : Int) : Rat) := by
      exact_mod_cast h1
    push_cast at hcast
    linarith

lemma get_hand_data_boundary (hand : Option HandData) (f : Nat)
    (thr : List (List Bool)) (hull : List Pt) (h12 : f % 12 = 0) :
    get_hand_data hand f thr hull =
      some { handAfterWave hand f hull with
             fingers := most_frequent ((handAfterWave hand f hull).gestureList ++
               [count_fingers thr (handAfterWave hand f hull)]),
             gestureList := [] } := by
  simp [get_hand_data, h12]

lemma get_hand_data_nonboundary (hand : Option HandData) (f : Nat)
    (thr : List (List Bool)) (hull : List Pt) (h12 : f % 12 ≠ 0) :
    get_hand_data hand f thr hull =
      some { handAfterWave hand f hull with
             gestureList := (handAfterWave hand f hull).gestureList ++
               [count_fingers thr (handAfterWave hand f hull)] } := by
  simp [get_hand_data, h12]

lemma mainStep_calib (s : PipelineState) (inp : FrameInput)
    (hlt : s.frames_elapsed < CALIBRATION_TIME) :
    mainStep s inp =
      { s with background := get_average s.background inp.region
               frames_elapsed := s.frames_elapsed + 1 } := by
  unfold mainStep
  rw [if_pos hlt]

lemma mainStep_nohand (s : PipelineState) (inp : FrameInput)
    (hge : CALIBRATION_TIME ≤ s.frames_elapsed) (hc : inp.contours = []) :
    mainStep s inp =
      { s with hand := s.hand.map (fun h => { h with isInFrame := false })
               frames_elapsed := s.frames_elapsed + 1 } := by
  unfold mainStep
  rw [if_neg (not_lt.mpr hge), hc]
  rfl

lemma mainStep_hand (s : PipelineState) (inp : FrameInput) (c : Contour)
    (cs : List Contour) (hge : CALIBRATION_TIME ≤ s.frames_elapsed)
    (hc : inp.contours = c :: cs) :
    mainStep s inp =
      { s with
        hand := get_hand_data (s.hand.map (fun h => { h with isInFrame := true }))
                  s.frames_elapsed (toMask (s.background.getD []) inp.region) inp.hull
        frames_elapsed := s.frames_elapsed + 1 } := by
  unfold mainStep
  rw [if_neg (not_lt.mpr hge), hc]
  rfl

lemma most_frequent_leader (l : List Nat) (hl : l ≠ []) :
    isLeadingVote l (most_frequent l) := by
  have hrevne : ([] : List Nat) ++ l.reverse ≠ [] := by
    simpa using fun h => hl (List.reverse_eq_nil_iff.mp h)
  have := mfLoop_leader l.reverse [] (fun _ => 0) 0 0 (by simp) (Or.inl ⟨rfl, rfl⟩) hrevne
  simp only [List.nil_append] at this
  obtain ⟨hmem, hmax, htie⟩ := this
  have hmf : mfLoop l.reverse (fun _ => 0) 0 0 = most_frequent l := rfl
  rw [hmf] at hmem hmax htie
  refine ⟨List.mem_reverse.mp hmem, ?_, ?_⟩
  · intro w hw
    have := hmax w (List.mem_reverse.mpr hw)
    simpa using this
  · intro w hw hcw
    have := htie w (List.mem_reverse.mpr hw) (by simpa using hcw)
    simpa using this

lemma handUpsert_isWaving (hand : Option HandData) (hull : List Pt) :
    (handUpsert hand hull).isWaving = hand.elim false HandData.isWaving := by
  cases hand <;> simp [handUpsert, HandData.init, HandData.update]

/-- C1: evaluation of the wave check at the failing input.  The body does
update `prevCenterX` to the stored center and `centerX` to the new sample,
as the claim and the tutorial's prose describe; but because `abs` is applied
to the boolean comparison `(centerX - prevCenterX) > 3` instead of to the
difference, the executed test drops the absolute value.  With stored center
108 and a newly sampled center 100 the displacement is −8, so the claim's
condition |−8| = 8 > 3 requires `isWaving = true`, yet the code leaves it
`false`. -/
theorem c1_wave_check_failing_input :
    (check_for_waving ⟨⟨0, 0⟩, ⟨0, 0⟩, ⟨0, 0⟩, ⟨0, 0⟩, 108, 0, true, false, 0, []⟩
        100).prevCenterX = 108 ∧
    (check_for_waving ⟨⟨0, 0⟩, ⟨0, 0⟩, ⟨0, 0⟩, ⟨0, 0⟩, 108, 0, true, false, 0, []⟩
        100).centerX = 100 ∧
    (check_for_waving ⟨⟨0, 0⟩, ⟨0, 0⟩, ⟨0, 0⟩, ⟨0, 0⟩, 108, 0, true, false, 0, []⟩
        100).isWaving = false ∧
    3 < |(100 : Int) - 108| := by
  decide

/-- C2: on every frame the displayed gesture label is a pure function of
the frame counter and the optional HandState, equal to the specification's
classifier rendered as text: Calibrating below 30 frames; otherwise NoHand
when the hand is absent or its in-frame flag is false; otherwise Waving
when the wave flag is set; otherwise Rock, Pointing, Scissors for smoothed
finger counts 0, 1, 2; and the Unknown fallback (the code's initial
"Searching..." text) for every other finger count. -/
theorem c2_label_refines_spec_classifier :
    ∀ (frames : Nat) (hand : Option HandData),
      write_on_image_text frames hand = labelText (classifySpec frames hand) := by
  intro frames hand
  unfold write_on_image_text classifySpec
  cases hand with
  | none => split_ifs <;> rfl
  | some h =>
      dsimp only
      split_ifs <;> rfl

/-- C3: the background buffer is mutated only while the frame counter is
below `CALIBRATION_TIME = 30`: the first observed region seeds it (promoted
to floating point), each further calibration frame replaces it with
(1 − 0.5)·background + 0.5·region, and from frame 30 on the buffer is left
unchanged regardless of the region supplied. -/
theorem c3_background_mutation_policy :
    CALIBRATION_TIME = 30 ∧ BG_WEIGHT = 1 / 2 ∧
    (∀ (s : PipelineState) (inp : FrameInput),
      CALIBRATION_TIME ≤ s.frames_elapsed →
      (mainStep s inp).background = s.background) ∧
    (∀ (s : PipelineState) (inp : FrameInput),
      s.frames_elapsed < CALIBRATION_TIME → s.background = none →
      (mainStep s inp).background = some (toFloatImg inp.region)) ∧
    (∀ (s : PipelineState) (inp : FrameInput) (bg : List (List Rat)),
      s.frames_elapsed < CALIBRATION_TIME → s.background = some bg →
      (mainStep s inp).background = some (accumulateWeighted bg inp.region)) := by
  refine ⟨rfl, rfl, ?_, ?_, ?_⟩
  · intro s inp hge
    unfold mainStep
    rw [if_neg (not_lt.mpr hge)]
  · intro s inp hlt hbg
    rw [mainStep_calib s inp hlt]
    simp [get_average, hbg]
  · intro s inp bg hlt hbg
    rw [mainStep_calib s inp hlt]
    simp [get_average, hbg]

/-- Witness for C3 at concrete states: a frozen post-calibration frame, a
seeding first frame, and an accumulating calibration frame. -/
theorem c3_background_mutation_policy_witness :
    (mainStep ⟨some [[1]], none, 30⟩ ⟨[[7]], [], []⟩).background = some [[1]] ∧
    (mainStep ⟨none, none, 0⟩ ⟨[[8]], [], []⟩).background = some (toFloatImg [[8]]) ∧
    (mainStep ⟨some [[2]], none, 5⟩ ⟨[[4]], [], []⟩).background =
      some (accumulateWeighted [[2]] [[4]]) :=
  ⟨c3_background_mutation_policy.2.2.1 ⟨some [[1]], none, 30⟩ ⟨[[7]], [], []⟩ (by decide),
   c3_background_mutation_policy.2.2.2.1 ⟨none, none, 0⟩ ⟨[[8]], [], []⟩ (by decide) rfl,
   c3_background_mutation_policy.2.2.2.2 ⟨some [[2]], none, 5⟩ ⟨[[4]], [], []⟩ [[2]]
     (by decide) rfl⟩

/-- C4 counterexample: the claim resolves window-vote ties in favor of the
most recent observation.  On the history [1, 2] (1 recorded first, 2 most
recently) both values occur once; the claim therefore requires the vote to
return 2, but `most_frequent` returns 1, the oldest observation. -/
theorem c4_tie_counterexample :
    most_frequent [1, 2] = 1 ∧
    List.count 1 [1, 2] = List.count 2 [1, 2] ∧ (1 : Nat) ≠ 2 := by
  decide

/-- C4 (amended): whenever the smoothing window closes (frame counter a
multiple of 12, after calibration, hand found), the finger count assigned
to the hand is `most_frequent` of the recorded history plus this frame's
observation, the history is cleared afterwards, and the assigned value is a
mode of that list with ties resolved in favor of the value whose first
occurrence is oldest (not the most recent observation). -/
theorem c4_window_vote_mode_oldest_tie (s : PipelineState) (inp : FrameInput)
    (h : HandData) (c : Contour) (cs : List Contour)
    (hge : CALIBRATION_TIME ≤ s.frames_elapsed) (hhand : s.hand = some h)
    (hcont : inp.contours = c :: cs) (h12 : s.frames_elapsed % 12 = 0) :
    (mainStep s inp).hand =
      some { handAfterWave (some { h with isInFrame := true }) s.frames_elapsed inp.hull with
             fingers := most_frequent (h.gestureList ++
               [count_fingers (toMask (s.background.getD []) inp.region)
                 (handAfterWave (some { h with isInFrame := true }) s.frames_elapsed inp.hull)])
             gestureList := [] } ∧
    isLeadingVote
      (h.gestureList ++
        [count_fingers (toMask (s.background.getD []) inp.region)
          (handAfterWave (some { h with isInFrame := true }) s.frames_elapsed inp.hull)])
      (most_frequent (h.gestureList ++
        [count_fingers (toMask (s.background.getD []) inp.region)
          (handAfterWave (some { h with isInFrame := true }) s.frames_elapsed inp.hull)])) := by
  constructor
  · rw [mainStep_hand s inp c cs hge hcont]
    dsimp only
    rw [hhand]
    simp only [Option.map_some']
    rw [get_hand_data_boundary _ _ _ _ h12, handAfterWave_some_gestureList]
  · exact most_frequent_leader _ (by simp)

/-- Witness for C4 at a concrete window-close frame (counter 36, hand
present, one contour): every hypothesis is discharged at the concrete
input; the vote list is the one observation of this frame. -/
theorem c4_window_vote_mode_oldest_tie_witness :
    (mainStep ⟨none, some ⟨⟨0, 0⟩, ⟨0, 0⟩, ⟨0, 0⟩, ⟨0, 0⟩, 0, 0, false, false, 0, []⟩, 36⟩
        ⟨[], [[⟨0, 0⟩]], []⟩).hand =
      some { handAfterWave
               (some ⟨⟨0, 0⟩, ⟨0, 0⟩, ⟨0, 0⟩, ⟨0, 0⟩, 0, 0, true, false, 0, []⟩) 36 [] with
             fingers := most_frequent ([] ++
               [count_fingers (toMask [] [])
                 (handAfterWave
                   (some ⟨⟨0, 0⟩, ⟨0, 0⟩, ⟨0, 0⟩, ⟨0, 0⟩, 0, 0, true, false, 0, []⟩) 36 [])])
             gestureList := [] } ∧
    isLeadingVote
      ([] ++ [count_fingers (toMask [] [])
        (handAfterWave
          (some ⟨⟨0, 0⟩, ⟨0, 0⟩, ⟨0, 0⟩, ⟨0, 0⟩, 0, 0, true, false, 0, []⟩) 36 [])])
      (most_frequent ([] ++ [count_fingers (toMask [] [])
        (handAfterWave
          (some ⟨⟨0, 0⟩, ⟨0, 0⟩, ⟨0, 0⟩, ⟨0, 0⟩, 0, 0, true, false, 0, []⟩) 36 [])])) :=
  c4_window_vote_mode_oldest_tie
    ⟨none, some ⟨⟨0, 0⟩, ⟨0, 0⟩, ⟨0, 0⟩, ⟨0, 0⟩, 0, 0, false, false, 0, []⟩, 36⟩
    ⟨[], [[⟨0, 0⟩]], []⟩ ⟨⟨0, 0⟩, ⟨0, 0⟩, ⟨0, 0⟩, ⟨0, 0⟩, 0, 0, false, false, 0, []⟩
    [⟨0, 0⟩] [] (by decide) rfl rfl (by decide)

/-- C5: with no contours, `segment` clears the in-frame flag (when a hand
exists) and signals no hand by returning no pair; with contours it sets the
flag and returns the thresholded mask together with a contour of maximal
enclosed area; and the no-hand signal renders as the normal
"No hand detected" label after calibration. -/
theorem c5_segment_contract :
    (∀ (hand : Option HandData) (bg : List (List Rat)) (region : List (List Nat)),
      segment hand bg region [] =
        (hand.map (fun h => { h with isInFrame := false }), none)) ∧
    (∀ (hand : Option HandData) (bg : List (List Rat)) (region : List (List Nat))
        (c : Contour) (cs : List Contour),
      segment hand bg region (c :: cs) =
        (hand.map (fun h => { h with isInFrame := true }),
         some (toMask bg region, pymaxBy contourArea c cs)) ∧
      pymaxBy contourArea c cs ∈ c :: cs ∧
      ∀ d ∈ c :: cs, contourArea d ≤ contourArea (pymaxBy contourArea c cs)) ∧
    (∀ (frames : Nat) (h : HandData), CALIBRATION_TIME ≤ frames →
      write_on_image_text frames (some { h with isInFrame := false }) =
        "No hand detected") := by
  refine ⟨fun hand bg region => rfl,
    fun hand bg region c cs => ⟨rfl, pymaxBy_mem _ c cs, pymaxBy_le _ c cs⟩, ?_⟩
  intro frames h hge
  unfold write_on_image_text
  rw [if_neg (not_lt.mpr hge)]
  simp

/-- Witness for C5: the empty-contour case, a max-area comparison on
concrete contours, and the rendered no-hand label. -/
theorem c5_segment_contract_witness :
    segment none [[0]] [[0]] [] = (none, none) ∧
    contourArea [⟨0, 0⟩] ≤
      contourArea (pymaxBy contourArea [⟨0, 0⟩, ⟨1, 0⟩, ⟨1, 1⟩] [[⟨0, 0⟩]]) ∧
    write_on_image_text 30
      (some { (⟨⟨0, 0⟩, ⟨0, 0⟩, ⟨0, 0⟩, ⟨0, 0⟩, 0, 0, true, false, 0, []⟩ : HandData) with
              isInFrame := false }) = "No hand detected" :=
  ⟨c5_segment_contract.1 none [[0]] [[0]],
   (c5_segment_contract.2.1 none [] [] [⟨0, 0⟩, ⟨1, 0⟩, ⟨1, 1⟩] [[⟨0, 0⟩]]).2.2
     [⟨0, 0⟩] (by simp),
   c5_segment_contract.2.2 30 ⟨⟨0, 0⟩, ⟨0, 0⟩, ⟨0, 0⟩, ⟨0, 0⟩, 0, 0, true, false, 0, []⟩
     (by decide)⟩

/-- C6: the returned finger count equals the number of scanline crossings
at height `line_height` (that is, `int(top.y + 0.2 × (bottom.y − top.y))`)
whose pixel-length `w` satisfies `5 < w` and `w < 3/4 · (right.x − left.x)`
(stated integrally as `4w < 3·(right.x − left.x)`, for the hand's
nonnegative horizontal span); and for an all-background mask the count
is 0. -/
theorem c6_count_fingers_scanline :
    ∀ (mask : List (List Bool)) (h : HandData),
      (h.left.x ≤ h.right.x →
        count_fingers mask h =
          ((scanRuns (scanRow mask (line_height h))).filter
            (fun (w : Nat) => decide (5 < w ∧ 4 * (w : Int) < 3 * (h.right.x - h.left.x)))).length) ∧
      (allBackground mask → count_fingers mask h = 0) := by
  intro mask h
  constructor
  · intro hspan
    unfold count_fingers
    refine (foldl_if_count
        (fun w => (w : Rat) < 3 * |((h.right.x : Rat) - (h.left.x : Rat))| / 4 ∧ 5 < w)
        (scanRuns (scanRow mask (line_height h))) 0).trans ?_
    rw [Nat.zero_add]
    refine congrArg List.length (List.filter_congr ?_)
    intro w _
    rw [decide_eq_decide]
    exact finger_cond_iff h hspan w
  · intro hbg
    unfold count_fingers
    rw [show scanRuns (scanRow mask (line_height h)) = [] from
      runsGo_all_false _ (scanRow_all_false mask (line_height h) hbg)]
    rfl

/-- Witness for C6 on the empty (all-background) mask. -/
theorem c6_count_fingers_scanline_witness :
    count_fingers [] ⟨⟨0, 0⟩, ⟨0, 0⟩, ⟨0, 0⟩, ⟨0, 0⟩, 0, 0, false, false, 0, []⟩ =
      ((scanRuns (scanRow []
          (line_height ⟨⟨0, 0⟩, ⟨0, 0⟩, ⟨0, 0⟩, ⟨0, 0⟩, 0, 0, false, false, 0, []⟩))).filter
        (fun (w : Nat) => decide (5 < w ∧ 4 * (w : Int) < 3 * (0 - 0)))).length ∧
    count_fingers [] ⟨⟨0, 0⟩, ⟨0, 0⟩, ⟨0, 0⟩, ⟨0, 0⟩, 0, 0, false, false, 0, []⟩ = 0 :=
  ⟨(c6_count_fingers_scanline [] _).1 (by decide),
   (c6_count_fingers_scanline [] _).2 (by simp [allBackground])⟩

/-- C7 counterexample: on a calibration frame (counter 5 < 30) with a
region and a contour available, the pipeline appends nothing to the
gesture history — the hand object, history included, is untouched — so
observations are not appended "every frame regardless of calibration". -/
theorem c7_no_append_during_calibration :
    (mainStep ⟨some [[0]], some ⟨⟨0, 0⟩, ⟨0, 0⟩, ⟨0, 0⟩, ⟨0, 0⟩, 0, 0, true, false, 1, []⟩, 5⟩
        ⟨[[99]], [[⟨0, 0⟩]], [⟨0, 0⟩]⟩).hand =
      some ⟨⟨0, 0⟩, ⟨0, 0⟩, ⟨0, 0⟩, ⟨0, 0⟩, 0, 0, true, false, 1, []⟩ ∧
    (5 : Nat) < CALIBRATION_TIME := by
  decide

/-- C7 (amended): one observation is appended to the history on every
post-calibration frame on which segmentation finds a hand — regardless of
the wave flag — and between window boundaries (counter not a multiple of
12) the externally visible finger count never changes. -/
theorem c7_append_after_calibration_and_stability :
    (∀ (s : PipelineState) (inp : FrameInput) (h : HandData) (c : Contour)
        (cs : List Contour),
      CALIBRATION_TIME ≤ s.frames_elapsed → s.hand = some h →
      inp.contours = c :: cs → s.frames_elapsed % 12 ≠ 0 →
      (mainStep s inp).hand =
        some { handAfterWave (some { h with isInFrame := true }) s.frames_elapsed inp.hull with
               gestureList := h.gestureList ++
                 [count_fingers (toMask (s.background.getD []) inp.region)
                   (handAfterWave (some { h with isInFrame := true })
                     s.frames_elapsed inp.hull)] }) ∧
    (∀ (s : PipelineState) (inp : FrameInput) (h h' : HandData),
      s.frames_elapsed % 12 ≠ 0 → s.hand = some h →
      (mainStep s inp).hand = some h' → h'.fingers = h.fingers) := by
  constructor
  · intro s inp h c cs hge hhand hcont h12
    rw [mainStep_hand s inp c cs hge hcont]
    dsimp only
    rw [hhand]
    simp only [Option.map_some']
    rw [get_hand_data_nonboundary _ _ _ _ h12, handAfterWave_some_gestureList]
  · intro s inp h h' h12 hhand hstep
    by_cases hlt : s.frames_elapsed < CALIBRATION_TIME
    · rw [mainStep_calib s inp hlt] at hstep
      dsimp only at hstep
      rw [hhand] at hstep
      simp only [Option.some.injEq] at hstep
      rw [← hstep]
    · rcases hcont : inp.contours with _ | ⟨c, cs⟩
      · rw [mainStep_nohand s inp (not_lt.mp hlt) hcont] at hstep
        dsimp only at hstep
        rw [hhand] at hstep
        simp only [Option.map_some', Option.some.injEq] at hstep
        rw [← hstep]
      · rw [mainStep_hand s inp c cs (not_lt.mp hlt) hcont] at hstep
        dsimp only at hstep
        rw [hhand] at hstep
        simp only [Option.map_some'] at hstep
        rw [get_hand_data_nonboundary _ _ _ _ h12] at hstep
        simp only [Option.some.injEq] at hstep
        rw [← hstep]
        exact handAfterWave_some_fingers { h with isInFrame := true } s.frames_elapsed inp.hull

/-- Witness for C7 at concrete post-calibration frames (counter 31): a
hand-found frame on which this frame's observation is appended, and a
no-contour frame on which the finger count 7 is unchanged. -/
theorem c7_append_after_calibration_and_stability_witness :
    (mainStep ⟨none, some ⟨⟨0, 0⟩, ⟨0, 0⟩, ⟨0, 0⟩, ⟨0, 0⟩, 0, 0, false, false, 7, []⟩, 31⟩
        ⟨[], [[⟨0, 0⟩]], []⟩).hand =
      some { handAfterWave
               (some ⟨⟨0, 0⟩, ⟨0, 0⟩, ⟨0, 0⟩, ⟨0, 0⟩, 0, 0, true, false, 7, []⟩) 31 [] with
             gestureList := [] ++
               [count_fingers (toMask [] [])
                 (handAfterWave
                   (some ⟨⟨0, 0⟩, ⟨0, 0⟩, ⟨0, 0⟩, ⟨0, 0⟩, 0, 0, true, false, 7, []⟩) 31 [])] } ∧
    HandData.fingers ⟨⟨0, 0⟩, ⟨0, 0⟩, ⟨0, 0⟩, ⟨0, 0⟩, 0, 0, false, false, 7, []⟩ =
      HandData.fingers ⟨⟨0, 0⟩, ⟨0, 0⟩, ⟨0, 0⟩, ⟨0, 0⟩, 0, 0, false, false, 7, []⟩ :=
  ⟨c7_append_after_calibration_and_stability.1
     ⟨none, some ⟨⟨0, 0⟩, ⟨0, 0⟩, ⟨0, 0⟩, ⟨0, 0⟩, 0, 0, false, false, 7, []⟩, 31⟩
     ⟨[], [[⟨0, 0⟩]], []⟩ ⟨⟨0, 0⟩, ⟨0, 0⟩, ⟨0, 0⟩, ⟨0, 0⟩, 0, 0, false, false, 7, []⟩
     [⟨0, 0⟩] [] (by decide) rfl rfl (by decide),
   c7_append_after_calibration_and_stability.2
     ⟨none, some ⟨⟨0, 0⟩, ⟨0, 0⟩, ⟨0, 0⟩, ⟨0, 0⟩, 0, 0, false, false, 7, []⟩, 31⟩
     ⟨[], [], []⟩ ⟨⟨0, 0⟩, ⟨0, 0⟩, ⟨0, 0⟩, ⟨0, 0⟩, 0, 0, false, false, 7, []⟩
     ⟨⟨0, 0⟩, ⟨0, 0⟩, ⟨0, 0⟩, ⟨0, 0⟩, 0, 0, false, false, 7, []⟩
     (by decide) rfl rfl⟩

/-- C8: after calibration, a HandState that is in frame with the waving
flag set is labelled Waving regardless of its finger count, and in
particular never Rock. -/
theorem c8_waving_priority (frames : Nat) (h : HandData)
    (hge : CALIBRATION_TIME ≤ frames) (hin : h.isInFrame = true)
    (hw : h.isWaving = true) :
    write_on_image_text frames (some h) = "Waving" ∧
    write_on_image_text frames (some h) ≠ "Rock" := by
  have htext : write_on_image_text frames (some h) = "Waving" := by
    unfold write_on_image_text
    rw [if_neg (not_lt.mpr hge)]
    simp [hin, hw]
  exact ⟨htext, by rw [htext]; decide⟩

/-- Witness for C8 at frame 30 with waving set and finger count 0. -/
theorem c8_waving_priority_witness :
    write_on_image_text 30
      (some ⟨⟨0, 0⟩, ⟨0, 0⟩, ⟨0, 0⟩, ⟨0, 0⟩, 0, 0, true, true, 0, []⟩) = "Waving" ∧
    write_on_image_text 30
      (some ⟨⟨0, 0⟩, ⟨0, 0⟩, ⟨0, 0⟩, ⟨0, 0⟩, 0, 0, true, true, 0, []⟩) ≠ "Rock" :=
  c8_waving_priority 30 ⟨⟨0, 0⟩, ⟨0, 0⟩, ⟨0, 0⟩, ⟨0, 0⟩, 0, 0, true, true, 0, []⟩
    (by decide) rfl rfl

/-- C9: the wave-sampling call site reads names that the program never
binds — `handData` is not among the code's bound names, and the `HandData`
class has no attribute `checkForWaving` — so on every frame where the wave
check is due (`frames_elapsed % 8 == 0`) the written body stops with a
name-resolution error, and no successful execution of the written code ever
turns the waving flag from false to true (ok-results preserve the incoming
flag, a freshly created hand starts with it false). -/
theorem c9_wave_call_name_error :
    waveCallReceiver ∉ boundPythonNames ∧
    waveCallMethod ∉ handDataAttributeNames ∧
    (∀ (hand : Option HandData) (frames : Nat) (thr : List (List Bool)) (hull : List Pt),
      frames % 8 = 0 →
      get_hand_data_written hand frames thr hull =
        Except.error "NameError: name handData is not defined") ∧
    (∀ (hand : Option HandData) (frames : Nat) (thr : List (List Bool)) (hull : List Pt)
        (h' : HandData),
      get_hand_data_written hand frames thr hull = Except.ok (some h') →
      h'.isWaving = hand.elim false HandData.isWaving) := by
  refine ⟨by decide, by decide, ?_, ?_⟩
  · intro hand frames thr hull h8
    unfold get_hand_data_written
    rw [if_pos h8, if_neg (by decide)]
  · intro hand frames thr hull h' hok
    unfold get_hand_data_written at hok
    by_cases h8 : frames % 8 = 0
    · rw [if_pos h8, if_neg (by decide)] at hok
      exact absurd hok (by simp)
    · rw [if_neg h8] at hok
      dsimp only at hok
      by_cases h12 : frames % 12 = 0
      · rw [if_pos h12] at hok
        simp only [Except.ok.injEq, Option.some.injEq] at hok
        rw [← hok]
        exact handUpsert_isWaving hand hull
      · rw [if_neg h12] at hok
        simp only [Except.ok.injEq, Option.some.injEq] at hok
        rw [← hok]
        exact handUpsert_isWaving hand hull

/-- Witness for C9: the concrete wave-due frame 8 errors out, and an
ok-result on the non-sampling frame 1 keeps the incoming wave flag true. -/
theorem c9_wave_call_name_error_witness :
    get_hand_data_written none 8 [] [] =
      Except.error "NameError: name handData is not defined" ∧
    HandData.isWaving
      { handUpsert (some ⟨⟨0, 0⟩, ⟨0, 0⟩, ⟨0, 0⟩, ⟨0, 0⟩, 5, 0, true, true, 3, []⟩) [] with
        gestureList :=
          (handUpsert (some ⟨⟨0, 0⟩, ⟨0, 0⟩, ⟨0, 0⟩, ⟨0, 0⟩, 5, 0, true, true, 3, []⟩) []).gestureList ++
            [count_fingers []
              (handUpsert (some ⟨⟨0, 0⟩, ⟨0, 0⟩, ⟨0, 0⟩, ⟨0, 0⟩, 5, 0, true, true, 3, []⟩) [])] } =
      true :=
  ⟨c9_wave_call_name_error.2.2.1 none 8 [] [] rfl,
   c9_wave_call_name_error.2.2.2
     (some ⟨⟨0, 0⟩, ⟨0, 0⟩, ⟨0, 0⟩, ⟨0, 0⟩, 5, 0, true, true, 3, []⟩) 1 [] []
     { handUpsert (some ⟨⟨0, 0⟩, ⟨0, 0⟩, ⟨0, 0⟩, ⟨0, 0⟩, 5, 0, true, true, 3, []⟩) [] with
       gestureList :=
         (handUpsert (some ⟨⟨0, 0⟩, ⟨0, 0⟩, ⟨0, 0⟩, ⟨0, 0⟩, 5, 0, true, true, 3, []⟩) []).gestureList ++
           [count_fingers []
             (handUpsert (some ⟨⟨0, 0⟩, ⟨0, 0⟩, ⟨0, 0⟩, ⟨0, 0⟩, 5, 0, true, true, 3, []⟩) [])] }
     rfl⟩

/-- C10: `most_frequent` returns 0 on the empty list and an element of the
list on every non-empty list, and a hand with finger count 0 (in frame,
not waving, after calibration) is labelled Rock — a normal outcome, not an
error. -/
theorem c10_most_frequent_total :
    most_frequent [] = 0 ∧
    (∀ l : List Nat, l ≠ [] → most_frequent l ∈ l) ∧
    (∀ (frames : Nat) (h : HandData), CALIBRATION_TIME ≤ frames →
      h.isInFrame = true → h.isWaving = false → h.fingers = 0 →
      write_on_image_text frames (some h) = "Rock") := by
  refine ⟨rfl, ?_, ?_⟩
  · intro l hl
    exact (most_frequent_leader l hl).1
  · intro frames h hge hin hw hf
    unfold write_on_image_text
    rw [if_neg (not_lt.mpr hge)]
    simp [hin, hw, hf]

/-- Witness for C10 on a concrete non-empty history and a concrete
zero-finger hand. -/
theorem c10_most_frequent_total_witness :
    most_frequent [4, 4, 2] ∈ [4, 4, 2] ∧
    write_on_image_text 30
      (some ⟨⟨0, 0⟩, ⟨0, 0⟩, ⟨0, 0⟩, ⟨0, 0⟩, 0, 0, true, false, 0, []⟩) = "Rock" :=
  ⟨c10_most_frequent_total.2.1 [4, 4, 2] (by decide),
   c10_most_frequent_total.2.2 30 ⟨⟨0, 0⟩, ⟨0, 0⟩, ⟨0, 0⟩, ⟨0, 0⟩, 0, 0, true, false, 0, []⟩
     (by decide) rfl rfl rfl⟩

end HGR
